import Mathlib

/-!
# Verification of the vizard-experiment-toolbox gaze validation pipeline

Shallow embedding of the gaze validation and accuracy/precision measurement
core of the toolbox:

* `vzgazetoolbox/stats.py` — statistics primitives (`mean`, `sd`, `median`,
  `rmsi`, `mad`).  The `vexptoolbox` package imports an identical `stats`
  module (`from .stats import *`); the version shipped under
  `vzgazetoolbox/stats.py` is the one embedded here.
* `vexptoolbox/recorder.py`, `SampleRecorder.validateEyeTracker` — the
  per-target sample processing and aggregation of one validation run.
* `vexptoolbox/data.py`, `ValidationResult` — result container,
  `_setResults`, `recomputeMetrics`, JSON export.

Modelling conventions:

* Python floats are modelled as exact rationals (`ℚ`); `math.sqrt` /
  `np.arccos` produce reals, so the exact-real versions of `sd` and `rmsi`
  return `ℝ` via `Real.sqrt`.  Inside the validation pipeline the host
  float square root is abstracted as an opaque function `sq : ℚ → ℚ`
  carried in the `Host` structure: no claim about the pipeline depends on
  the value of a square root.
* Host-runtime geometry (`vizmat.AngleBetweenVector`,
  `vizmat.VectorToPoint`, `Transform.makeVecRotVec` + `getEuler`) is not
  part of this repository; the pipeline is parameterised over these
  functions (fields of `Host`), exactly as the source code treats them as
  external collaborators.
* Python `dict`s (per-target result records, the aggregate record) are
  modelled as insertion-ordered association lists `List (String × ℚ)`;
  assignment is `dset` (overwrite-in-place or append, like CPython).
* Code that raises (`ZeroDivisionError` in `mean`/`rmsi` on too-short
  input) is modelled with `Option`: `none` is an uncaught exception.
-/

namespace VExp

/-! ## Statistics primitives — `vzgazetoolbox/stats.py` -/

/-- Python `mean(x)`: `sum([float(a) for a in x]) / float(len(x))`.
Raises `ZeroDivisionError` on empty input (see `meanE`). -/
def mean (x : List ℚ) : ℚ := x.sum / (x.length : ℚ)

/-- The radicand of `sd(x)`: `sum([(float(xi) - xm)**2 for xi in x]) / float(len(x))`
with `xm = mean(x)` (population variance, divide by N). -/
def sdVar (x : List ℚ) : ℚ := ((x.map (fun xi => (xi - mean x) ^ 2)).sum) / (x.length : ℚ)

/-- Python `sd(x)`: `math.sqrt` of the population variance. -/
noncomputable def sd (x : List ℚ) : ℝ := Real.sqrt (sdVar x)

/-- Python `median(x)`: sort, take `m = int(len(x)/2.0)`; for even length average
the two middle elements `(x[m] + x[m-1])/2.0`, else take `x[m]`. -/
def median (x : List ℚ) : ℚ :=
  let s := x.insertionSort (· ≤ ·)
  let m := x.length / 2
  if x.length % 2 = 0 then (s.getD m 0 + s.getD (m - 1) 0) / 2 else s.getD m 0

/-- The list `dsq` of `rmsi(x)`:
`[(float(x[t]) - float(x[t-1]))**2 for t in range(1, len(x))]`. -/
def succDiffSq (x : List ℚ) : List ℚ := List.zipWith (fun a b => (a - b) ^ 2) x.tail x

/-- The radicand of `rmsi(x)`: `sum(dsq) / len(dsq)`.
Raises `ZeroDivisionError` when `len(dsq) == 0`, i.e. `len(x) < 2` (see `rmsiE`). -/
def rmsiVar (x : List ℚ) : ℚ := (succDiffSq x).sum / ((succDiffSq x).length : ℚ)

/-- Python `rmsi(x)`: intersample RMS, `math.sqrt(sum(dsq) / len(dsq))`. -/
noncomputable def rmsi (x : List ℚ) : ℝ := Real.sqrt (rmsiVar x)

/-- Python `mad(x)`: median of absolute deviations from the median. -/
def mad (x : List ℚ) : ℚ := median (x.map (fun xi => |xi - median x|))

/-- Error behaviour of `mean`: `ZeroDivisionError` (`none`) on empty input. -/
def meanE (x : List ℚ) : Option ℚ := if x.length = 0 then none else some (mean x)

/-- Error behaviour of `rmsi`: `sum(dsq)/len(dsq)` raises `ZeroDivisionError`
(`none`) when the list of successive differences is empty. -/
noncomputable def rmsiE (x : List ℚ) : Option ℝ :=
  if (succDiffSq x).length = 0 then none else some (rmsi x)

/-! ## Angular-error clamp — `vexptoolbox/data.py`, `recomputeMetrics`
(`np.degrees(np.arccos(np.clip(np.dot(vEyeTar, vEyeGaze), -1.0, 1.0)))`). -/

/-- Numpy `np.clip(v, lo, hi)` = `max(lo, min(v, hi))`. -/
def npClip (v lo hi : ℚ) : ℚ := max lo (min v hi)

/-- The angular error, in degrees, computed from a dot product `d`:
`np.degrees(np.arccos(np.clip(d, -1.0, 1.0)))`. -/
noncomputable def arccosDeg (d : ℚ) : ℝ :=
  Real.arccos ((npClip d (-1) 1 : ℚ)) * 180 / Real.pi

/-! ### Basic length lemma for `succDiffSq` -/

theorem succDiffSq_length (x : List ℚ) : (succDiffSq x).length = x.length - 1 := by
  simp [succDiffSq, List.length_zipWith, List.length_tail]

theorem sq_mem_zipWith_nonneg :
    ∀ (u v : List ℚ) (a : ℚ), a ∈ List.zipWith (fun a b => (a - b) ^ 2) u v → 0 ≤ a := by
  intro u
  induction u with
  | nil => intro v a hm; simp at hm
  | cons h t ih =>
    intro v a hm
    cases v with
    | nil => simp at hm
    | cons h2 t2 =>
      rw [List.zipWith_cons_cons, List.mem_cons] at hm
      rcases hm with rfl | hm
      · positivity
      · exact ih t2 a hm

/-! ## Claims C5, C10, C6 -/

/-- C5: `mean` is the arithmetic mean; `sd` is the population standard
deviation (divide by N, not N−1); `median` averages the two middle elements
of the sorted list for even length and takes the middle element for odd
length; `rmsi` is the square root of the mean of the N−1 squared successive
differences; `mad` is the median of absolute deviations from the median;
and on the fixed inputs of the spec: `mean([1,2,3,4]) = 2.5`,
`sd([2,4,4,4,5,5,7,9]) = 2.0`, `median([1,2,3,4]) = 2.5`,
`rmsi([1,3,2,4]) = sqrt((4+1+4)/3)`. -/
theorem C5_stats_reference_values :
    mean [1, 2, 3, 4] = 5 / 2 ∧
    sd [2, 4, 4, 4, 5, 5, 7, 9] = 2 ∧
    median [1, 2, 3, 4] = 5 / 2 ∧
    rmsi [1, 3, 2, 4] = Real.sqrt ((4 + 1 + 4) / 3) ∧
    (∀ x : List ℚ, x ≠ [] → mean x = x.sum / (x.length : ℚ)) ∧
    (∀ x : List ℚ, x ≠ [] →
      (sd x) ^ 2 = (((x.map (fun xi => (xi - mean x) ^ 2)).sum : ℚ) : ℝ) / (x.length : ℚ)) ∧
    (∀ x : List ℚ, x ≠ [] →
      ∃ s : List ℚ, s.Perm x ∧ s.Sorted (· ≤ ·) ∧
        (x.length % 2 = 0 →
          median x = (s.getD (x.length / 2 - 1) 0 + s.getD (x.length / 2) 0) / 2) ∧
        (x.length % 2 = 1 → median x = s.getD (x.length / 2) 0)) ∧
    (∀ x : List ℚ, 2 ≤ x.length →
      (succDiffSq x).length = x.length - 1 ∧
      (rmsi x) ^ 2 = (((succDiffSq x).sum : ℚ) : ℝ) / ((x.length : ℚ) - 1)) ∧
    (∀ x : List ℚ, mad x = median (x.map (fun xi => |xi - median x|))) := by
  refine ⟨?_, ?_, ?_, ?_, ?_, ?_, ?_, ?_, ?_⟩
  · norm_num [mean]
  · have h : sdVar [2, 4, 4, 4, 5, 5, 7, 9] = 4 := by norm_num [sdVar, mean]
    rw [sd, h]
    rw [show ((4 : ℚ) : ℝ) = 2 ^ 2 by norm_num,
      Real.sqrt_sq (by norm_num : (0 : ℝ) ≤ 2)]
  · norm_num [median, List.insertionSort, List.orderedInsert]
  · have h : rmsiVar [1, 3, 2, 4] = 3 := by
      norm_num [rmsiVar, succDiffSq]
    rw [rmsi, h]
    norm_num
  · intro x _; rfl
  · intro x hx
    have h : (0 : ℚ) ≤ sdVar x := by
      rw [sdVar]
      apply div_nonneg
      · exact List.sum_nonneg (by
          intro a ha
          obtain ⟨xi, _, rfl⟩ := List.mem_map.mp ha
          positivity)
      · exact_mod_cast Nat.cast_nonneg x.length
    rw [sd, Real.sq_sqrt (by exact_mod_cast h)]
    rw [sdVar]; push_cast; ring
  · intro x _
    refine ⟨x.insertionSort (· ≤ ·), List.perm_insertionSort _ x,
      List.sorted_insertionSort _ x, ?_, ?_⟩
    · intro he; rw [median]; simp only [he]; norm_num; ring
    · intro ho; rw [median]; simp only [ho]; norm_num
  · intro x hx
    have hlen : (succDiffSq x).length = x.length - 1 := succDiffSq_length x
    refine ⟨hlen, ?_⟩
    have h : (0 : ℚ) ≤ rmsiVar x := by
      rw [rmsiVar]
      apply div_nonneg
      · exact List.sum_nonneg (by
          intro a ha
          rw [succDiffSq] at ha
          exact sq_mem_zipWith_nonneg _ _ a ha)
      · exact_mod_cast Nat.cast_nonneg _
    rw [rmsi, Real.sq_sqrt (by exact_mod_cast h)]
    rw [rmsiVar, hlen]
    have hc : ((x.length - 1 : ℕ) : ℚ) = (x.length : ℚ) - 1 := by
      have h1 : 1 ≤ x.length := le_trans (by norm_num) hx
      push_cast [h1]; ring
    rw [hc]; push_cast; ring
  · intro x; rfl

/-- Witness for C5: the universally quantified conjuncts applied at
concrete inputs, hypotheses discharged there. -/
theorem C5_stats_reference_values_witness :
    mean [2, 4] = ([2, 4] : List ℚ).sum / (([2, 4] : List ℚ).length : ℚ) ∧
    (rmsi [0, 2]) ^ 2 =
      (((succDiffSq [0, 2]).sum : ℚ) : ℝ) / ((([0, 2] : List ℚ).length : ℚ) - 1) :=
  ⟨C5_stats_reference_values.2.2.2.2.1 [2, 4] (by simp),
   (C5_stats_reference_values.2.2.2.2.2.2.2.1 [0, 2] (by simp)).2⟩

/-- C10: `rmsi` fails (`ZeroDivisionError`, modelled as `none`) on every
list with fewer than two elements — including the non-empty singleton —
and succeeds on every list with at least two elements. -/
theorem C10_rmsi_needs_two_samples :
    (∀ x : List ℚ, x.length < 2 → rmsiE x = none) ∧
    (∀ x : List ℚ, 2 ≤ x.length → ∃ v : ℝ, rmsiE x = some v) := by
  constructor
  · intro x hx
    rw [rmsiE, if_pos]
    rw [succDiffSq_length]; omega
  · intro x hx
    refine ⟨rmsi x, ?_⟩
    rw [rmsiE, if_neg]
    rw [succDiffSq_length]; omega

/-- Witness for C10: a singleton list fails, a two-element list succeeds. -/
theorem C10_rmsi_needs_two_samples_witness :
    rmsiE [(5 : ℚ)] = none ∧ ∃ v : ℝ, rmsiE [(1 : ℚ), 3] = some v :=
  ⟨C10_rmsi_needs_two_samples.1 [5] (by norm_num),
   C10_rmsi_needs_two_samples.2 [1, 3] (by norm_num)⟩

/-- C6: the dot product is clamped into `[-1, 1]` before `arccos`, so the
clamped value is always in the domain of `arccos` (no domain error), and a
dot product pushed slightly above 1 (e.g. `1.0000001`) yields 0 degrees
while one slightly below −1 (e.g. `-1.0000001`) yields 180 degrees. -/
theorem C6_arccos_clamp :
    (∀ d : ℚ, -1 ≤ npClip d (-1) 1 ∧ npClip d (-1) 1 ≤ 1) ∧
    (∀ d : ℚ, 1 < d → arccosDeg d = 0) ∧
    (∀ d : ℚ, d < -1 → arccosDeg d = 180) ∧
    arccosDeg (10000001 / 10000000) = 0 ∧
    arccosDeg (-(10000001 / 10000000)) = 180 := by
  have hclipHi : ∀ d : ℚ, 1 < d → npClip d (-1) 1 = 1 := by
    intro d hd
    rw [npClip, min_eq_right hd.le, max_eq_right (by norm_num : (-1 : ℚ) ≤ 1)]
  have hclipLo : ∀ d : ℚ, d < -1 → npClip d (-1) 1 = -1 := by
    intro d hd
    rw [npClip, min_eq_left (le_trans hd.le (by norm_num)), max_eq_left hd.le]
  have hhi : ∀ d : ℚ, 1 < d → arccosDeg d = 0 := by
    intro d hd
    rw [arccosDeg, hclipHi d hd]
    push_cast
    rw [Real.arccos_one]
    ring
  have hlo : ∀ d : ℚ, d < -1 → arccosDeg d = 180 := by
    intro d hd
    rw [arccosDeg, hclipLo d hd]
    push_cast
    rw [Real.arccos_neg_one]
    field_simp
  refine ⟨?_, hhi, hlo, hhi _ (by norm_num), hlo _ (by norm_num)⟩
  intro d
  constructor
  · exact le_max_left _ _
  · exact max_le (by norm_num) (min_le_right _ _)

/-- Witness for C6: the clamp bounds and both out-of-domain directions at
concrete drifted dot products. -/
theorem C6_arccos_clamp_witness :
    (-1 ≤ npClip (3 / 2) (-1) 1 ∧ npClip (3 / 2) (-1) 1 ≤ 1) ∧
    arccosDeg (3 / 2) = 0 ∧ arccosDeg (-(3 / 2)) = 180 :=
  ⟨C6_arccos_clamp.1 (3 / 2),
   C6_arccos_clamp.2.1 (3 / 2) (by norm_num),
   C6_arccos_clamp.2.2.1 (-(3 / 2)) (by norm_num)⟩

/-! ## Data model of the validation pipeline — `vexptoolbox/recorder.py` -/

/-- A 3D vector / point (rational coordinates). -/
structure Vec3 where
  x : ℚ
  y : ℚ
  z : ℚ
deriving DecidableEq

/-- The fields of one raw gaze sample dict (built by `_record_val_sample`)
that the validation math reads: combined gaze-ray origin and direction,
and — when the tracker has per-eye data — per-eye origins and directions.
Other recorded fields (timestamps, world-space data, …) are opaque to the
validation computation and omitted. -/
structure RawSample where
  tracker_pos : Vec3
  trackVec : Vec3
  trackerL_pos : Vec3
  trackerR_pos : Vec3
  trackVecL : Vec3
  trackVecR : Vec3
deriving DecidableEq

/-- Monocular fields written into a sample dict by the per-sample loop of
`validateEyeTracker` (keys `targetErrL`, `targetErrL_X`, … `targetGazeR_Y`). -/
structure MonoFields where
  targetErrL : ℚ
  targetErrL_X : ℚ
  targetErrL_Y : ℚ
  targetGazeL_X : ℚ
  targetGazeL_Y : ℚ
  targetErrR : ℚ
  targetErrR_X : ℚ
  targetErrR_Y : ℚ
  targetGazeR_X : ℚ
  targetGazeR_Y : ℚ
deriving DecidableEq

/-- A sample dict after the per-sample loop of `validateEyeTracker` mutated
it: the raw fields plus the stored error/gaze-angle fields.  `mono` is
`some _` exactly when the tracker supplied per-eye data. -/
structure ProcSample where
  raw : RawSample
  targetErr : ℚ
  targetErr_X : ℚ
  targetErr_Y : ℚ
  targetGaze_X : ℚ
  targetGaze_Y : ℚ
  mono : Option MonoFields
deriving DecidableEq

/-- Host-runtime numerics the pipeline calls but which are not part of this
repository: `math.sqrt` (as `sq`), `vizmat.AngleBetweenVector`,
`vizmat.VectorToPoint` (normalised vector from a point to a point) and the
composition `Transform.makeVecRotVec` + `getEuler` projected to its first
two Euler components (as `eulerXY`).  Every pipeline theorem below holds
for an arbitrary `Host`. -/
structure Host where
  sq : ℚ → ℚ
  angleBetween : Vec3 → Vec3 → ℚ
  vecToPoint : Vec3 → Vec3 → Vec3
  eulerXY : Vec3 → Vec3 → ℚ × ℚ

/-- One validation target: its spec `(x°, y°, depth m)` (`tarpos`) and its
resolved position in HMD space (`tgtHMD`). -/
structure ValTarget where
  x : ℚ
  y : ℚ
  d : ℚ
  hmd : Vec3
deriving DecidableEq

/-- Python dict lookup on an insertion-ordered association list. -/
def plook (k : String) : List (String × ℚ) → Option ℚ
  | [] => none
  | (a, v) :: t => if a = k then some v else plook k t

/-- Python dict assignment `d[k] = v`: overwrite in place if the key
exists, else append. -/
def dset (d : List (String × ℚ)) (k : String) (v : ℚ) : List (String × ℚ) :=
  match d with
  | [] => [(k, v)]
  | (a, w) :: t => if a = k then (a, v) :: t else (a, w) :: dset t k v

/-- Key list of a dict. -/
def keysOf (d : List (String × ℚ)) : List String := d.map Prod.fst

/-- Read a monocular field of a processed sample.  The default `0` is
unreachable in every use: the pipeline only reads monocular fields of
samples for which they were stored. -/
def ProcSample.monoF (p : ProcSample) (f : MonoFields → ℚ) : ℚ :=
  match p.mono with
  | some m => f m
  | none => 0

/-- The per-sample computation of `validateEyeTracker`
(`recorder.py` lines 817-886): stores the combined angular error `dC`
(`AngleBetweenVector`), its signed decomposition `(dX, -dY)`
(`makeVecRotVec(eyeTarVec, eyeGazeVec).getEuler()`), the gaze angle in
head space `(gX, -gY)` (`makeVecRotVec([0,0,1], eyeHeadVec)`), and, with
per-eye data, the analogous monocular values.  NOTE the faithful source
slip at line 865: the monocular signed decomposition reads
`angularDiff.getEuler()` — the *combined* rotation — although the per-eye
rotation `angularDiffM` was just built; so `targetErrL_X/_Y` and
`targetErrR_X/_Y` repeat the combined `dX`/`dY`. -/
def processSample (h : Host) (hasEye : Bool) (tgtHMD : Vec3) (sam : RawSample) : ProcSample :=
  let eyeTarVec := h.vecToPoint sam.tracker_pos tgtHMD
  let eyeGazeVec := sam.trackVec
  let dC := h.angleBetween eyeGazeVec eyeTarVec
  let dXY := h.eulerXY eyeTarVec eyeGazeVec
  let gXY := h.eulerXY ⟨0, 0, 1⟩ sam.trackVec
  { raw := sam
    targetErr := dC
    targetErr_X := dXY.1
    targetErr_Y := -dXY.2
    targetGaze_X := gXY.1
    targetGaze_Y := -gXY.2
    mono :=
      if hasEye then
        let eyeTarVecL := h.vecToPoint sam.trackerL_pos tgtHMD
        let dCL := h.angleBetween sam.trackVecL eyeTarVecL
        let gXYL := h.eulerXY ⟨0, 0, 1⟩ sam.trackVecL
        let eyeTarVecR := h.vecToPoint sam.trackerR_pos tgtHMD
        let dCR := h.angleBetween sam.trackVecR eyeTarVecR
        let gXYR := h.eulerXY ⟨0, 0, 1⟩ sam.trackVecR
        some { targetErrL := dCL
               targetErrL_X := dXY.1
               targetErrL_Y := -dXY.2
               targetGazeL_X := gXYL.1
               targetGazeL_Y := -gXYL.2
               targetErrR := dCR
               targetErrR_X := dXY.1
               targetErrR_Y := -dXY.2
               targetGazeR_X := gXYR.1
               targetGazeR_Y := -gXYR.2 }
      else none }

/-- Left-eye block of the per-target result dict
(`recorder.py` lines 915-933, iteration with eye label L). -/
def monoDictL (h : Host) (ps : List ProcSample) : List (String × ℚ) :=
  let gX := ps.map (fun p => p.monoF (fun m => m.targetGazeL_X))
  let gY := ps.map (fun p => p.monoF (fun m => m.targetGazeL_Y))
  let dX := ps.map (fun p => p.monoF (fun m => m.targetErrL_X))
  let dY := ps.map (fun p => p.monoF (fun m => m.targetErrL_Y))
  let dC := ps.map (fun p => p.monoF (fun m => m.targetErrL))
  [("avgX_L", mean gX), ("avgY_L", mean gY),
   ("medX_L", median gX), ("medY_L", median gY),
   ("offX_L", mean dX), ("offY_L", mean dY),
   ("acc_L", mean dC),
   ("accX_L", mean (dX.map (fun v => |v|))),
   ("accY_L", mean (dY.map (fun v => |v|))),
   ("medacc_L", median dC),
   ("medaccX_L", median (dX.map (fun v => |v|))),
   ("medaccY_L", median (dY.map (fun v => |v|))),
   ("sd_L", h.sq (sdVar dC)), ("sdX_L", h.sq (sdVar dX)), ("sdY_L", h.sq (sdVar dY)),
   ("rmsi_L", h.sq (rmsiVar dC)), ("rmsiX_L", h.sq (rmsiVar dX)),
   ("rmsiY_L", h.sq (rmsiVar dY))]

/-- Right-eye block of the per-target result dict
(`recorder.py` lines 915-933, iteration with eye label R). -/
def monoDictR (h : Host) (ps : List ProcSample) : List (String × ℚ) :=
  let gX := ps.map (fun p => p.monoF (fun m => m.targetGazeR_X))
  let gY := ps.map (fun p => p.monoF (fun m => m.targetGazeR_Y))
  let dX := ps.map (fun p => p.monoF (fun m => m.targetErrR_X))
  let dY := ps.map (fun p => p.monoF (fun m => m.targetErrR_Y))
  let dC := ps.map (fun p => p.monoF (fun m => m.targetErrR))
  [("avgX_R", mean gX), ("avgY_R", mean gY),
   ("medX_R", median gX), ("medY_R", median gY),
   ("offX_R", mean dX), ("offY_R", mean dY),
   ("acc_R", mean dC),
   ("accX_R", mean (dX.map (fun v => |v|))),
   ("accY_R", mean (dY.map (fun v => |v|))),
   ("medacc_R", median dC),
   ("medaccX_R", median (dX.map (fun v => |v|))),
   ("medaccY_R", median (dY.map (fun v => |v|))),
   ("sd_R", h.sq (sdVar dC)), ("sdX_R", h.sq (sdVar dX)), ("sdY_R", h.sq (sdVar dY)),
   ("rmsi_R", h.sq (rmsiVar dC)), ("rmsiX_R", h.sq (rmsiVar dX)),
   ("rmsiY_R", h.sq (rmsiVar dY))]

/-- The per-target result dict `d` of `validateEyeTracker`
(`recorder.py` lines 806-933), built in source assignment order.  `sd` and
`rmsi` are applied to the *signed* horizontal/vertical error lists, the
`acc`/`medacc` variants to their absolute values. -/
def targetDict (h : Host) (hasEye : Bool) (c : ℕ) (t : ValTarget)
    (ps : List ProcSample) : List (String × ℚ) :=
  let delta := ps.map (fun p => p.targetErr)
  let deltaX := ps.map (fun p => p.targetErr_X)
  let deltaY := ps.map (fun p => p.targetErr_Y)
  let gazeX := ps.map (fun p => p.targetGaze_X)
  let gazeY := ps.map (fun p => p.targetGaze_Y)
  let base :=
    [("set_no", (c : ℚ)), ("x", t.x), ("y", t.y), ("d", t.d),
     ("xm", t.hmd.x), ("ym", t.hmd.y),
     ("avgX", mean gazeX), ("avgY", mean gazeY),
     ("medX", median gazeX), ("medY", median gazeY),
     ("offX", mean deltaX), ("offY", mean deltaY),
     ("acc", mean delta),
     ("accX", mean (deltaX.map (fun v => |v|))),
     ("accY", mean (deltaY.map (fun v => |v|))),
     ("medacc", median delta),
     ("medaccX", median (deltaX.map (fun v => |v|))),
     ("medaccY", median (deltaY.map (fun v => |v|))),
     ("sd", h.sq (sdVar delta)), ("sdX", h.sq (sdVar deltaX)), ("sdY", h.sq (sdVar deltaY)),
     ("rmsi", h.sq (rmsiVar delta)), ("rmsiX", h.sq (rmsiVar deltaX)),
     ("rmsiY", h.sq (rmsiVar deltaY))]
  if hasEye then
    let ipdM := ps.map (fun p => |p.raw.trackerR_pos.x - p.raw.trackerL_pos.x| * 1000)
    base ++ [("ipd", mean ipdM)] ++ monoDictL h ps ++ monoDictR h ps
  else base

/-- One iteration of the per-target loop of `validateEyeTracker`: discard
the first 20 samples (`s = s[20:]`, line 815), process the rest, and build
the result dict.  With fewer than 2 remaining samples the statistics raise
(`mean` on an empty list, else `rmsi` on a singleton): `none`. -/
def validateTarget (h : Host) (hasEye : Bool) (c : ℕ) (t : ValTarget)
    (batch : List RawSample) : Option (List (String × ℚ) × List ProcSample) :=
  let s := batch.drop 20
  let ps := s.map (processSample h hasEye t.hmd)
  if ps.length < 2 then none
  else some (targetDict h hasEye c t ps, ps)

/-- The per-target loop of `validateEyeTracker`, accumulating `tar_data`
and `sam_data`; `c` is the target counter assigned at setup. -/
def runTargets (h : Host) (hasEye : Bool) :
    ℕ → List (ValTarget × List RawSample) →
    Option (List (List (String × ℚ)) × List (List ProcSample))
  | _, [] => some ([], [])
  | c, (t, b) :: rest =>
    match validateTarget h hasEye c t b with
    | none => none
    | some (d, ps) =>
      match runTargets h hasEye (c + 1) rest with
      | none => none
      | some (ds, pss) => some (d :: ds, ps :: pss)

/-- Append `v` to the list collected under key `k`
(`avg_data[var].append(...)` with on-demand `avg_data[var] = []`). -/
def addKV : List (String × List ℚ) → String → ℚ → List (String × List ℚ)
  | [], k, v => [(k, [v])]
  | (a, vs) :: t, k, v =>
    if a = k then (a, vs ++ [v]) :: t else (a, vs) :: addKV t k v

/-- Collect one target dict into the aggregate accumulator
(`for var in tar.keys(): avg_data[var].append(tar[var])`). -/
def collectTar (acc : List (String × List ℚ)) (d : List (String × ℚ)) :
    List (String × List ℚ) :=
  d.foldl (fun a kv => addKV a kv.1 kv.2) acc

/-- Collect all target dicts (`recorder.py` lines 945-950). -/
def collectAvg (ds : List (List (String × ℚ))) : List (String × List ℚ) :=
  ds.foldl collectTar []

/-- Aggregate each collected list with `agg`
(`for var in avg_data.keys(): avg_data[var] = agg_fun(avg_data[var])`;
`validateEyeTracker` always uses `mean`). -/
def aggDict (agg : List ℚ → ℚ) (ds : List (List (String × ℚ))) : List (String × ℚ) :=
  (collectAvg ds).map (fun kv => (kv.1, agg kv.2))

/-- `MISSING_VALUE = -99999.0` (`data.py` line 169). -/
def MISSING_VALUE : ℚ := -99999

/-- The attribute list of `ValidationResult._setResults` (`data.py`
lines 284-287).  Note it contains no `medacc`/`medaccX`/`medaccY`. -/
def RESULT_VARS : List String :=
  ["acc", "accX", "accY", "sd", "sdX", "sdY", "rmsi", "rmsiX", "rmsiY", "ipd",
   "acc_L", "accX_L", "accY_L", "sd_L", "sdX_L", "sdY_L", "rmsi_L", "rmsiX_L", "rmsiY_L",
   "acc_R", "accX_R", "accY_R", "sd_R", "sdX_R", "sdY_R", "rmsi_R", "rmsiX_R", "rmsiY_R",
   "start_sample", "end_sample"]

/-- `ValidationResult._setResults`: every listed attribute is set to the
value from the result dict when present, else to `MISSING_VALUE`. -/
def setResults (result : List (String × ℚ)) : List (String × ℚ) :=
  RESULT_VARS.map (fun v => (v, (plook v result).getD MISSING_VALUE))

/-- The `ValidationResult` container (`data.py`): the resolved global
attributes (`_setResults` output), the per-target dict list and the
per-target raw (processed) sample lists.  The participant-metadata dict is
opaque host data and not modelled. -/
structure ValidationResult where
  results : List (String × ℚ)
  targets : List (List (String × ℚ))
  samples : List (List ProcSample)
deriving DecidableEq

/-- Attribute access `result.acc`, `result.sdX`, … for the attributes set
by `_setResults`. -/
def ValidationResult.get (r : ValidationResult) (v : String) : ℚ :=
  (plook v r.results).getD MISSING_VALUE

/-- The numeric core of `SampleRecorder.validateEyeTracker`: run every
target, then build the grand-average dict with `mean` and wrap everything
in a `ValidationResult`.  A statistics exception aborts the whole run
(`none`): no partial result. -/
def validateEyeTracker (h : Host) (hasEye : Bool) (targets : List ValTarget)
    (batches : List (List RawSample)) : Option ValidationResult :=
  match runTargets h hasEye 0 (targets.zip batches) with
  | none => none
  | some (tarData, samData) =>
    some { results := setResults (aggDict mean tarData)
           targets := tarData
           samples := samData }

/-! ## `ValidationResult.recomputeMetrics` — `vexptoolbox/data.py` lines 346-514

The embedding covers the branch taken for every result produced by
`validateEyeTracker`: the stored `targetErr`/`targetErr_X`/… columns are
present, so `delta` is read from them (`data.py` line 416) and the
recompute-from-vectors fallback (lines 421-442, whose clamped `arccos` is
modelled by `arccosDeg` above) is not entered.  Spatial ranges are taken
already normalised to `(min, max)` pairs; the scalar-to-pair normalisation
(lines 370-389) is input validation outside the claims. -/

/-- Python slice `l[a:b]` for `0 ≤ a ≤ b` (out-of-range indices clamp). -/
def pySlice {α : Type} (l : List α) (a b : ℕ) : List α := (l.take b).drop a

/-- The column test that `targetErrL` and `targetErrR` are among
`s.columns`, on a batch of uniformly-shaped sample records. -/
def monoPresent (s : List ProcSample) : Bool :=
  match s with
  | [] => false
  | p :: _ => p.mono.isSome

/-- Left-eye block of the recomputed per-target dict (`data.py` lines
461-483, eye label L), applied to dict `d` in source assignment order.
Unlike the recorder, `medaccX_L`/`medaccY_L` use the median of absolute
errors and `sdX_L`/`rmsiX_L` the signed stored errors (as the recorder
does). -/
def recomputeMonoL (h : Host) (s : List ProcSample) (d : List (String × ℚ)) :
    List (String × ℚ) :=
  let gX := s.map (fun p => p.monoF (fun m => m.targetGazeL_X))
  let gY := s.map (fun p => p.monoF (fun m => m.targetGazeL_Y))
  let eX := s.map (fun p => p.monoF (fun m => m.targetErrL_X))
  let eY := s.map (fun p => p.monoF (fun m => m.targetErrL_Y))
  let dM := s.map (fun p => p.monoF (fun m => m.targetErrL))
  let d := dset (dset (dset (dset (dset (dset d
    "avgX_L" (mean gX))
    "avgY_L" (mean gY))
    "medX_L" (median gX))
    "medY_L" (median gY))
    "offX_L" (mean eX))
    "offY_L" (mean eY)
  let d := dset (dset (dset (dset (dset (dset d
    "acc_L" (mean dM))
    "accX_L" (mean (eX.map (fun v => |v|))))
    "accY_L" (mean (eY.map (fun v => |v|))))
    "medacc_L" (median dM))
    "medaccX_L" (median (eX.map (fun v => |v|))))
    "medaccY_L" (median (eY.map (fun v => |v|)))
  dset (dset (dset (dset (dset (dset d
    "sd_L" (h.sq (sdVar dM)))
    "sdX_L" (h.sq (sdVar eX)))
    "sdY_L" (h.sq (sdVar eY)))
    "rmsi_L" (h.sq (rmsiVar dM)))
    "rmsiX_L" (h.sq (rmsiVar eX)))
    "rmsiY_L" (h.sq (rmsiVar eY))

/-- Right-eye block of the recomputed per-target dict (`data.py` lines
461-483, eye label R). -/
def recomputeMonoR (h : Host) (s : List ProcSample) (d : List (String × ℚ)) :
    List (String × ℚ) :=
  let gX := s.map (fun p => p.monoF (fun m => m.targetGazeR_X))
  let gY := s.map (fun p => p.monoF (fun m => m.targetGazeR_Y))
  let eX := s.map (fun p => p.monoF (fun m => m.targetErrR_X))
  let eY := s.map (fun p => p.monoF (fun m => m.targetErrR_Y))
  let dM := s.map (fun p => p.monoF (fun m => m.targetErrR))
  let d := dset (dset (dset (dset (dset (dset d
    "avgX_R" (mean gX))
    "avgY_R" (mean gY))
    "medX_R" (median gX))
    "medY_R" (median gY))
    "offX_R" (mean eX))
    "offY_R" (mean eY)
  let d := dset (dset (dset (dset (dset (dset d
    "acc_R" (mean dM))
    "accX_R" (mean (eX.map (fun v => |v|))))
    "accY_R" (mean (eY.map (fun v => |v|))))
    "medacc_R" (median dM))
    "medaccX_R" (median (eX.map (fun v => |v|))))
    "medaccY_R" (median (eY.map (fun v => |v|)))
  dset (dset (dset (dset (dset (dset d
    "sd_R" (h.sq (sdVar dM)))
    "sdX_R" (h.sq (sdVar eX)))
    "sdY_R" (h.sq (sdVar eY)))
    "rmsi_R" (h.sq (rmsiVar dM)))
    "rmsiX_R" (h.sq (rmsiVar eX)))
    "rmsiY_R" (h.sq (rmsiVar eY))

/-- The per-target body of `recomputeMetrics` (`data.py` lines 392-489):
`d = tar.copy()`, then the gaze/offset/accuracy/precision assignments on
the sample slice, then the monocular block when the stored monocular
columns exist.  Faithful source slips: `deltaX`/`deltaY` are
`np.abs(...)` of the stored signed errors (line 409-410), and
`medaccX`/`medaccY` are assigned `mean(...)` (lines 449-450) although
their names (and the recorder) call for the median.  With fewer than two
samples in the slice the statistics raise (`mean` of an empty slice, else
`rmsi` of a singleton): `none`. -/
def recomputeTargetDict (h : Host) (start endv : ℕ) (tar : List (String × ℚ))
    (sam : List ProcSample) : List (String × ℚ) :=
  let s := pySlice sam start endv
  let delta := s.map (fun p => p.targetErr)
  let deltaX := s.map (fun p => |p.targetErr_X|)
  let deltaY := s.map (fun p => |p.targetErr_Y|)
  let d := dset (dset (dset (dset (dset (dset tar
    "avgX" (mean (s.map (fun p => p.targetGaze_X))))
    "avgY" (mean (s.map (fun p => p.targetGaze_Y))))
    "medX" (median (s.map (fun p => p.targetGaze_X))))
    "medY" (median (s.map (fun p => p.targetGaze_Y))))
    "offX" (mean (s.map (fun p => p.targetErr_X))))
    "offY" (mean (s.map (fun p => p.targetErr_Y)))
  let d := dset (dset (dset (dset (dset (dset d
    "acc" (mean delta))
    "accX" (mean deltaX))
    "accY" (mean deltaY))
    "medacc" (median delta))
    "medaccX" (mean deltaX))
    "medaccY" (mean deltaY)
  let d := dset (dset (dset (dset (dset (dset d
    "sd" (h.sq (sdVar delta)))
    "sdX" (h.sq (sdVar deltaX)))
    "sdY" (h.sq (sdVar deltaY)))
    "rmsi" (h.sq (rmsiVar delta)))
    "rmsiX" (h.sq (rmsiVar deltaX)))
    "rmsiY" (h.sq (rmsiVar deltaY))
  if monoPresent s then
    let d := recomputeMonoL h s d
    let d := recomputeMonoR h s d
    dset d "ipd"
      (mean (s.map (fun p => |p.raw.trackerR_pos.x - p.raw.trackerL_pos.x| * 1000)))
  else d

/-- The per-target body of `recomputeMetrics` with its error behaviour:
with fewer than two samples in the slice the statistics raise (`mean` of
an empty slice, else `rmsi` of a singleton): `none`. -/
def recomputeTarget (h : Host) (start endv : ℕ) (tar : List (String × ℚ))
    (sam : List ProcSample) : Option (List (String × ℚ)) :=
  if (pySlice sam start endv).length < 2 then none
  else some (recomputeTargetDict h start endv tar sam)

/-- The filter of `recomputeMetrics` (`data.py` lines 492-497): a target
is collected for aggregation iff its `x`, `y` and `d` values lie inside
each given `(min, max)` range. -/
def tarInRange (xr yr dr : Option (ℚ × ℚ)) (tar : List (String × ℚ)) : Bool :=
  let tx := (plook "x" tar).getD 0
  let ty := (plook "y" tar).getD 0
  let td := (plook "d" tar).getD 0
  (match xr with | none => true | some (lo, hi) => decide (lo ≤ tx) && decide (tx ≤ hi)) &&
  (match yr with | none => true | some (lo, hi) => decide (lo ≤ ty) && decide (ty ≤ hi)) &&
  (match dr with | none => true | some (lo, hi) => decide (lo ≤ td) && decide (td ≤ hi))

/-- The target loop of `recomputeMetrics`, carrying the mutable
`end_sample` variable: `if end_sample is None: end_sample = len(sam)`
(lines 395-396) runs *inside* the loop, so the batch length of the first
target becomes the bound for all later targets.  Returns all recomputed dicts,
the in-range sublist, and the final `end_sample`. -/
def recomputeLoop (h : Host) (start : ℕ) (xr yr dr : Option (ℚ × ℚ)) :
    Option ℕ → List (List (String × ℚ) × List ProcSample) →
    Option (List (List (String × ℚ)) × List (List (String × ℚ)) × Option ℕ)
  | endS, [] => some ([], [], endS)
  | endS, (tar, sam) :: rest =>
    let e := endS.getD sam.length
    match recomputeTarget h start e tar sam with
    | none => none
    | some d =>
      match recomputeLoop h start xr yr dr (some e) rest with
      | none => none
      | some (ds, ins, eF) =>
        some (d :: ds, (if tarInRange xr yr dr tar then d :: ins else ins), eF)

/-- `ValidationResult.recomputeMetrics`: recompute every per-target dict
from the retained samples, aggregate only the in-range targets with
`agg_fun` (default `mean`), set `start_sample`/`end_sample`, and return a
*new* `ValidationResult` with the original sample lists.  A final
`end_sample` of `None` (possible only when there are no targets) is
stored as `MISSING_VALUE`. -/
def recomputeMetrics (h : Host) (r : ValidationResult) (start : ℕ)
    (endS : Option ℕ) (xr yr dr : Option (ℚ × ℚ))
    (aggF : Option (List ℚ → ℚ)) : Option ValidationResult :=
  let agg := aggF.getD mean
  match recomputeLoop h start xr yr dr endS (r.targets.zip r.samples) with
  | none => none
  | some (tarData, inData, eFin) =>
    let avg := aggDict agg inData
    let avg := dset avg "start_sample" (start : ℚ)
    let avg := dset avg "end_sample"
      (match eFin with | some e => (e : ℚ) | none => MISSING_VALUE)
    some { results := setResults avg
           targets := tarData
           samples := r.samples }

/-! ## Dictionary and aggregation lemmas -/

theorem plook_eq_none_iff (k : String) (d : List (String × ℚ)) :
    plook k d = none ↔ k ∉ keysOf d := by
  induction d with
  | nil => simp [plook, keysOf]
  | cons p t ih =>
    obtain ⟨a, v⟩ := p
    rw [plook]
    by_cases h : a = k
    · subst h
      simp [keysOf]
    · rw [if_neg h]
      simp only [keysOf, List.map_cons, List.mem_cons]
      rw [ih]
      constructor
      · rintro hk (rfl | hm)
        · exact h rfl
        · exact hk hm
      · intro hk hm
        exact hk (Or.inr hm)

theorem plook_isSome_of_mem {k : String} {d : List (String × ℚ)}
    (hk : k ∈ keysOf d) : (plook k d).isSome := by
  cases hp : plook k d with
  | none => exact absurd hk ((plook_eq_none_iff k d).mp hp)
  | some v => rfl

/-- Values stored under key `k` in a dict, in order. -/
def occ (k : String) (d : List (String × ℚ)) : List ℚ :=
  (d.filter (fun kv => kv.1 == k)).map Prod.snd

theorem occ_nil (k : String) : occ k [] = [] := rfl

theorem occ_cons (k a : String) (v : ℚ) (t : List (String × ℚ)) :
    occ k ((a, v) :: t) = if a = k then v :: occ k t else occ k t := by
  by_cases h : a = k <;> simp [occ, h]

theorem occ_eq_nil_of_not_mem {k : String} {d : List (String × ℚ)}
    (hk : k ∉ keysOf d) : occ k d = [] := by
  induction d with
  | nil => rfl
  | cons p t ih =>
    obtain ⟨a, v⟩ := p
    simp only [keysOf, List.map_cons, List.mem_cons] at hk
    push_neg at hk
    rw [occ_cons, if_neg (fun h => hk.1 h.symm)]
    exact ih (by simpa [keysOf] using hk.2)

theorem occ_eq_of_nodup {k : String} {d : List (String × ℚ)}
    (hnd : (keysOf d).Nodup) :
    occ k d = match plook k d with | some v => [v] | none => [] := by
  induction d with
  | nil => rfl
  | cons p t ih =>
    obtain ⟨a, v⟩ := p
    simp only [keysOf, List.map_cons, List.nodup_cons] at hnd
    rw [occ_cons, plook]
    by_cases h : a = k
    · subst h
      rw [if_pos rfl, if_pos rfl]
      rw [occ_eq_nil_of_not_mem (by simpa [keysOf] using hnd.1)]
    · rw [if_neg h, if_neg h]
      exact ih (by simpa [keysOf] using hnd.2)

/-- Lookup in the list-valued accumulator. -/
def plookL (k : String) : List (String × List ℚ) → Option (List ℚ)
  | [] => none
  | (a, vs) :: t => if a = k then some vs else plookL k t

/-- The list collected so far under `k` (empty when the key is absent). -/
def valsOf (k : String) (acc : List (String × List ℚ)) : List ℚ :=
  (plookL k acc).getD []

theorem plookL_addKV_self (acc : List (String × List ℚ)) (k : String) (v : ℚ) :
    plookL k (addKV acc k v) = some (valsOf k acc ++ [v]) := by
  induction acc with
  | nil => simp [addKV, plookL, valsOf]
  | cons p t ih =>
    obtain ⟨a, vs⟩ := p
    rw [addKV]
    by_cases h : a = k
    · subst h
      rw [if_pos rfl, plookL, if_pos rfl, valsOf, plookL, if_pos rfl]
      rfl
    · rw [if_neg h, plookL, if_neg h, ih, valsOf, valsOf, plookL, if_neg h]

theorem plookL_addKV_ne (acc : List (String × List ℚ)) {k k2 : String}
    (h : k2 ≠ k) (v : ℚ) : plookL k (addKV acc k2 v) = plookL k acc := by
  induction acc with
  | nil => simp [addKV, plookL, h]
  | cons p t ih =>
    obtain ⟨a, vs⟩ := p
    rw [addKV]
    by_cases ha : a = k2
    · subst ha
      rw [if_pos rfl, plookL, if_neg h, plookL, if_neg h]
    · rw [if_neg ha, plookL, plookL]
      by_cases hak : a = k
      · rw [if_pos hak, if_pos hak]
      · rw [if_neg hak, if_neg hak, ih]

theorem valsOf_collectTar (k : String) (d : List (String × ℚ)) :
    ∀ acc, valsOf k (collectTar acc d) = valsOf k acc ++ occ k d := by
  induction d with
  | nil => intro acc; simp [collectTar, occ]
  | cons p t ih =>
    intro acc
    obtain ⟨a, v⟩ := p
    show valsOf k (collectTar (addKV acc a v) t) = _
    rw [ih, occ_cons]
    by_cases h : a = k
    · subst h
      rw [if_pos rfl, valsOf, plookL_addKV_self]
      simp
    · rw [if_neg h, valsOf, plookL_addKV_ne acc h, valsOf]

theorem plookL_collectTar_isSome (k : String) (d : List (String × ℚ)) :
    ∀ acc, (plookL k (collectTar acc d)).isSome =
      ((plookL k acc).isSome || !(occ k d).isEmpty) := by
  induction d with
  | nil => intro acc; simp [collectTar, occ]
  | cons p t ih =>
    intro acc
    obtain ⟨a, v⟩ := p
    show (plookL k (collectTar (addKV acc a v) t)).isSome = _
    rw [ih, occ_cons]
    by_cases h : a = k
    · subst h
      rw [if_pos rfl, plookL_addKV_self]
      simp
    · rw [if_neg h, plookL_addKV_ne acc h]

theorem valsOf_collectAvg (k : String) (ds : List (List (String × ℚ))) :
    valsOf k (collectAvg ds) = (ds.map (occ k)).flatten := by
  have hgen : ∀ (l : List (List (String × ℚ))) (acc),
      valsOf k (l.foldl collectTar acc) = valsOf k acc ++ (l.map (occ k)).flatten := by
    intro l
    induction l with
    | nil => intro acc; simp
    | cons d t ih =>
      intro acc
      rw [List.foldl_cons, ih, valsOf_collectTar]
      simp
  rw [collectAvg, hgen]
  simp [valsOf, plookL]

theorem plookL_collectAvg_isSome (k : String) (ds : List (List (String × ℚ))) :
    (plookL k (collectAvg ds)).isSome = ds.any (fun d => !(occ k d).isEmpty) := by
  have hgen : ∀ (l : List (List (String × ℚ))) (acc),
      (plookL k (l.foldl collectTar acc)).isSome =
        ((plookL k acc).isSome || l.any (fun d => !(occ k d).isEmpty)) := by
    intro l
    induction l with
    | nil => intro acc; simp
    | cons d t ih =>
      intro acc
      rw [List.foldl_cons, ih, plookL_collectTar_isSome]
      simp [Bool.or_assoc]
  rw [collectAvg, hgen]
  simp [plookL]

theorem plook_map_agg (f : List ℚ → ℚ) (k : String) (l : List (String × List ℚ)) :
    plook k (l.map (fun kv => (kv.1, f kv.2))) = (plookL k l).map f := by
  induction l with
  | nil => simp [plook, plookL]
  | cons p t ih =>
    obtain ⟨a, vs⟩ := p
    rw [List.map_cons, plook, plookL]
    by_cases h : a = k
    · rw [if_pos h, if_pos h]
      rfl
    · rw [if_neg h, if_neg h, ih]

theorem plook_aggDict (agg : List ℚ → ℚ) (ds : List (List (String × ℚ))) (k : String) :
    plook k (aggDict agg ds) = (plookL k (collectAvg ds)).map agg :=
  plook_map_agg agg k (collectAvg ds)

theorem plook_aggDict_of_all (agg : List ℚ → ℚ) (ds : List (List (String × ℚ)))
    (k : String) (hne : ds ≠ [])
    (hall : ∀ d ∈ ds, (keysOf d).Nodup ∧ k ∈ keysOf d) :
    plook k (aggDict agg ds) =
      some (agg (ds.map (fun d => (plook k d).getD 0))) := by
  have hocc : ∀ d ∈ ds, occ k d = [(plook k d).getD 0] := by
    intro d hd
    obtain ⟨hnd, hk⟩ := hall d hd
    have := occ_eq_of_nodup (k := k) hnd
    cases hp : plook k d with
    | none => exact absurd hk ((plook_eq_none_iff k d).mp hp)
    | some v =>
      rw [this, hp]
      simp [hp]
  have hflat : ∀ (l : List (List (String × ℚ))),
      (∀ d ∈ l, occ k d = [(plook k d).getD 0]) →
      (l.map (occ k)).flatten = l.map (fun d => (plook k d).getD 0) := by
    intro l
    induction l with
    | nil => intro _; rfl
    | cons d t ih =>
      intro hl
      rw [List.map_cons, List.map_cons, List.flatten_cons,
        hl d (List.mem_cons_self d t),
        ih (fun d2 hd2 => hl d2 (List.mem_cons_of_mem d hd2))]
      rfl
  have hsome : (plookL k (collectAvg ds)).isSome := by
    rw [plookL_collectAvg_isSome]
    obtain ⟨d, hd⟩ := List.exists_mem_of_ne_nil ds hne
    refine List.any_eq_true.mpr ⟨d, hd, ?_⟩
    rw [hocc d hd]
    rfl
  cases hp : plookL k (collectAvg ds) with
  | none => rw [hp] at hsome; exact absurd hsome (by simp)
  | some vs =>
    have hvs : valsOf k (collectAvg ds) = vs := by rw [valsOf, hp]; rfl
    rw [valsOf_collectAvg, hflat ds hocc] at hvs
    rw [plook_aggDict, hp, ← hvs]
    rfl

theorem plook_aggDict_none (agg : List ℚ → ℚ) (ds : List (List (String × ℚ)))
    (k : String) (hall : ∀ d ∈ ds, k ∉ keysOf d) :
    plook k (aggDict agg ds) = none := by
  rw [plook_aggDict]
  have : (plookL k (collectAvg ds)).isSome = false := by
    rw [plookL_collectAvg_isSome]
    simp only [List.any_eq_false]
    intro d hd
    rw [occ_eq_nil_of_not_mem (hall d hd)]
    simp
  cases hp : plookL k (collectAvg ds) with
  | none => rfl
  | some vs => rw [hp] at this; exact absurd this (by simp)

theorem plook_map_pairs (f : String → ℚ) (k : String) (l : List String) :
    plook k (l.map (fun v => (v, f v))) = if k ∈ l then some (f k) else none := by
  induction l with
  | nil => simp [plook]
  | cons a t ih =>
    rw [List.map_cons, plook]
    by_cases h : a = k
    · subst h
      simp
    · rw [if_neg h, ih]
      by_cases hm : k ∈ t
      · rw [if_pos hm, if_pos (List.mem_cons_of_mem a hm)]
      · rw [if_neg hm, if_neg (by
          intro hc
          rcases List.mem_cons.mp hc with rfl | hc2
          · exact h rfl
          · exact hm hc2)]

theorem plook_setResults (res : List (String × ℚ)) (k : String)
    (hk : k ∈ RESULT_VARS) :
    plook k (setResults res) = some ((plook k res).getD MISSING_VALUE) := by
  rw [setResults, plook_map_pairs, if_pos hk]

theorem get_setResults (res : List (String × ℚ)) (k : String)
    (hk : k ∈ RESULT_VARS) (r : ValidationResult)
    (hres : r.results = setResults res) :
    r.get k = (plook k res).getD MISSING_VALUE := by
  rw [ValidationResult.get, hres, plook_setResults res k hk]
  rfl

/-! ## Characterisation of a successful validation run -/

/-- The result dict produced for one target on a successful run. -/
def expTarget (h : Host) (he : Bool) (c : ℕ) (t : ValTarget)
    (b : List RawSample) : List (String × ℚ) :=
  targetDict h he c t ((b.drop 20).map (processSample h he t.hmd))

/-- The `tar_data` list of a successful run. -/
def expTars (h : Host) (he : Bool) :
    ℕ → List (ValTarget × List RawSample) → List (List (String × ℚ))
  | _, [] => []
  | c, (t, b) :: rest => expTarget h he c t b :: expTars h he (c + 1) rest

/-- The `sam_data` list of a successful run. -/
def expSams (h : Host) (he : Bool) :
    List (ValTarget × List RawSample) → List (List ProcSample)
  | [] => []
  | (t, b) :: rest => (b.drop 20).map (processSample h he t.hmd) :: expSams h he rest

theorem validateTarget_eq_none (h : Host) (he : Bool) (c : ℕ) (t : ValTarget)
    (b : List RawSample) (hb : b.length < 22) :
    validateTarget h he c t b = none := by
  rw [validateTarget, if_pos]
  rw [List.length_map, List.length_drop]
  omega

theorem validateTarget_eq_some (h : Host) (he : Bool) (c : ℕ) (t : ValTarget)
    (b : List RawSample) (hb : 22 ≤ b.length) :
    validateTarget h he c t b =
      some (expTarget h he c t b, (b.drop 20).map (processSample h he t.hmd)) := by
  rw [validateTarget, if_neg]
  · rfl
  · rw [List.length_map, List.length_drop]
    omega

theorem runTargets_eq (h : Host) (he : Bool) :
    ∀ (l : List (ValTarget × List RawSample)) (c : ℕ),
      (∀ p ∈ l, 22 ≤ p.2.length) →
      runTargets h he c l = some (expTars h he c l, expSams h he l) := by
  intro l
  induction l with
  | nil => intro c _; rfl
  | cons p rest ih =>
    intro c hl
    obtain ⟨t, b⟩ := p
    rw [runTargets, validateTarget_eq_some h he c t b (hl (t, b) (List.mem_cons_self _ _)),
      ih (c + 1) (fun q hq => hl q (List.mem_cons_of_mem _ hq))]
    rfl

theorem runTargets_none (h : Host) (he : Bool) :
    ∀ (l : List (ValTarget × List RawSample)) (c : ℕ) (i : ℕ) (hi : i < l.length),
      (l.get ⟨i, hi⟩).2.length < 22 → runTargets h he c l = none := by
  intro l
  induction l with
  | nil => intro c i hi; exact absurd hi (by simp)
  | cons p rest ih =>
    intro c i hi hlen
    obtain ⟨t, b⟩ := p
    rw [runTargets]
    cases i with
    | zero =>
      rw [validateTarget_eq_none h he c t b (by simpa using hlen)]
    | succ j =>
      cases hv : validateTarget h he c t b with
      | none => rfl
      | some x =>
        obtain ⟨d, ps⟩ := x
        rw [ih (c + 1) j (by simpa using hi) (by simpa using hlen)]

theorem expTars_length (h : Host) (he : Bool) :
    ∀ (l : List (ValTarget × List RawSample)) (c : ℕ),
      (expTars h he c l).length = l.length := by
  intro l
  induction l with
  | nil => intro c; rfl
  | cons p rest ih =>
    intro c
    obtain ⟨t, b⟩ := p
    rw [expTars, List.length_cons, ih (c + 1), List.length_cons]

theorem expSams_length (h : Host) (he : Bool) :
    ∀ (l : List (ValTarget × List RawSample)),
      (expSams h he l).length = l.length := by
  intro l
  induction l with
  | nil => rfl
  | cons p rest ih =>
    obtain ⟨t, b⟩ := p
    rw [expSams, List.length_cons, ih, List.length_cons]

theorem expSams_mem_length (h : Host) (he : Bool) (M : ℕ) :
    ∀ (l : List (ValTarget × List RawSample)),
      (∀ p ∈ l, p.2.length = M) →
      ∀ s ∈ expSams h he l, s.length = M - 20 := by
  intro l
  induction l with
  | nil => intro _ s hs; exact absurd hs (by simp [expSams])
  | cons p rest ih =>
    intro hl s hs
    obtain ⟨t, b⟩ := p
    rw [expSams, List.mem_cons] at hs
    rcases hs with rfl | hs
    · rw [List.length_map, List.length_drop, hl (t, b) (List.mem_cons_self _ _)]
    · exact ih (fun q hq => hl q (List.mem_cons_of_mem _ hq)) s hs

theorem expTars_mem (h : Host) (he : Bool) :
    ∀ (l : List (ValTarget × List RawSample)) (c : ℕ) (d : List (String × ℚ)),
      d ∈ expTars h he c l →
      ∃ c2 t b, (t, b) ∈ l ∧ d = expTarget h he c2 t b := by
  intro l
  induction l with
  | nil => intro c d hd; exact absurd hd (by simp [expTars])
  | cons p rest ih =>
    intro c d hd
    obtain ⟨t, b⟩ := p
    rw [expTars, List.mem_cons] at hd
    rcases hd with rfl | hd
    · exact ⟨c, t, b, List.mem_cons_self _ _, rfl⟩
    · obtain ⟨c2, t2, b2, hm, he2⟩ := ih (c + 1) d hd
      exact ⟨c2, t2, b2, List.mem_cons_of_mem _ hm, he2⟩

theorem validateEyeTracker_eq (h : Host) (he : Bool) (ts : List ValTarget)
    (bs : List (List RawSample))
    (hl : ∀ p ∈ ts.zip bs, 22 ≤ p.2.length) :
    validateEyeTracker h he ts bs =
      some { results := setResults (aggDict mean (expTars h he 0 (ts.zip bs)))
             targets := expTars h he 0 (ts.zip bs)
             samples := expSams h he (ts.zip bs) } := by
  rw [validateEyeTracker, runTargets_eq h he (ts.zip bs) 0 hl]

theorem validateEyeTracker_none (h : Host) (he : Bool) (ts : List ValTarget)
    (bs : List (List RawSample)) (i : ℕ) (hi : i < (ts.zip bs).length)
    (hb : ((ts.zip bs).get ⟨i, hi⟩).2.length < 22) :
    validateEyeTracker h he ts bs = none := by
  rw [validateEyeTracker, runTargets_none h he (ts.zip bs) 0 i hi hb]

/-! ## Key lists of the per-target dicts -/

/-- Keys of a per-target dict without per-eye data
(`recorder.py` lines 806-910). -/
def KEYS_BASE : List String :=
  ["set_no", "x", "y", "d", "xm", "ym",
   "avgX", "avgY", "medX", "medY", "offX", "offY",
   "acc", "accX", "accY", "medacc", "medaccX", "medaccY",
   "sd", "sdX", "sdY", "rmsi", "rmsiX", "rmsiY"]

/-- Additional keys with per-eye data (`recorder.py` lines 912-933). -/
def KEYS_MONO : List String :=
  ["ipd",
   "avgX_L", "avgY_L", "medX_L", "medY_L", "offX_L", "offY_L",
   "acc_L", "accX_L", "accY_L", "medacc_L", "medaccX_L", "medaccY_L",
   "sd_L", "sdX_L", "sdY_L", "rmsi_L", "rmsiX_L", "rmsiY_L",
   "avgX_R", "avgY_R", "medX_R", "medY_R", "offX_R", "offY_R",
   "acc_R", "accX_R", "accY_R", "medacc_R", "medaccX_R", "medaccY_R",
   "sd_R", "sdX_R", "sdY_R", "rmsi_R", "rmsiX_R", "rmsiY_R"]

/-- The monocular result attributes (`_L`/`_R` variants and `ipd`). -/
def MONO_VARS : List String :=
  ["ipd",
   "acc_L", "accX_L", "accY_L", "sd_L", "sdX_L", "sdY_L",
   "rmsi_L", "rmsiX_L", "rmsiY_L",
   "acc_R", "accX_R", "accY_R", "sd_R", "sdX_R", "sdY_R",
   "rmsi_R", "rmsiX_R", "rmsiY_R"]

theorem keysOf_targetDict (h : Host) (he : Bool) (c : ℕ) (t : ValTarget)
    (ps : List ProcSample) :
    keysOf (targetDict h he c t ps) =
      if he then KEYS_BASE ++ KEYS_MONO else KEYS_BASE := by
  cases he <;>
    simp [targetDict, monoDictL, monoDictR, keysOf, KEYS_BASE, KEYS_MONO]

theorem keys_base_nodup : KEYS_BASE.Nodup := by decide

theorem keys_full_nodup : (KEYS_BASE ++ KEYS_MONO).Nodup := by decide

theorem keysOf_expTarget_nodup (h : Host) (he : Bool) (c : ℕ) (t : ValTarget)
    (b : List RawSample) : (keysOf (expTarget h he c t b)).Nodup := by
  rw [expTarget, keysOf_targetDict]
  cases he
  · simpa using keys_base_nodup
  · simpa using keys_full_nodup

/-! ## Inversion of a successful run -/

theorem validateTarget_some_inv (h : Host) (he : Bool) (c : ℕ) (t : ValTarget)
    (b : List RawSample) (x : List (String × ℚ) × List ProcSample)
    (hx : validateTarget h he c t b = some x) :
    22 ≤ b.length ∧ x.1 = expTarget h he c t b := by
  rw [validateTarget] at hx
  by_cases hlen : (List.map (processSample h he t.hmd) (b.drop 20)).length < 2
  · rw [if_pos hlen] at hx
    exact absurd hx (by simp)
  · rw [if_neg hlen] at hx
    rw [List.length_map, List.length_drop] at hlen
    refine ⟨by omega, ?_⟩
    cases hx
    rfl

theorem runTargets_some_inv (h : Host) (he : Bool) :
    ∀ (l : List (ValTarget × List RawSample)) (c : ℕ)
      (ds : List (List (String × ℚ))) (pss : List (List ProcSample)),
      runTargets h he c l = some (ds, pss) → ds = expTars h he c l := by
  intro l
  induction l with
  | nil =>
    intro c ds pss hr
    rw [runTargets] at hr
    cases hr
    rfl
  | cons p rest ih =>
    intro c ds pss hr
    obtain ⟨t, b⟩ := p
    rw [runTargets] at hr
    cases hv : validateTarget h he c t b with
    | none => rw [hv] at hr; exact absurd hr (by simp)
    | some x =>
      rw [hv] at hr
      obtain ⟨d, ps⟩ := x
      cases hrest : runTargets h he (c + 1) rest with
      | none => rw [hrest] at hr; exact absurd hr (by simp)
      | some y =>
        rw [hrest] at hr
        obtain ⟨ds2, pss2⟩ := y
        injection hr with hr2
        rw [Prod.ext_iff] at hr2
        obtain ⟨h1, h2⟩ := hr2
        have hd : d = expTarget h he c t b :=
          (validateTarget_some_inv h he c t b (d, ps) hv).2
        subst h1
        show d :: ds2 = expTars h he c ((t, b) :: rest)
        rw [expTars, ← ih (c + 1) ds2 pss2 hrest, hd]

/-! ## Concrete demo inputs (used by counterexamples and witnesses) -/

/-- Zero vector. -/
def vZero : Vec3 := ⟨0, 0, 0⟩

/-- Canonical forward vector. -/
def vFwd : Vec3 := ⟨0, 0, 1⟩

/-- A simple concrete host: identity square root, zero angular error, and
an Euler decomposition reading off the first two gaze-vector components. -/
def host0 : Host :=
  { sq := id
    angleBetween := fun _ _ => 0
    vecToPoint := fun _ _ => vFwd
    eulerXY := fun _ g => (g.x, g.y) }

/-- A raw sample whose combined gaze vector has horizontal component `gx`. -/
def rawOf (gx : ℚ) : RawSample :=
  { tracker_pos := vZero
    trackVec := ⟨gx, 0, 1⟩
    trackerL_pos := vZero
    trackerR_pos := vZero
    trackVecL := vFwd
    trackVecR := vFwd }

/-- Central validation target at 6 m. -/
def tar0 : ValTarget := ⟨0, 0, 6, ⟨0, 0, 6⟩⟩

/-- A batch: 20 settle samples followed by samples with the given
horizontal gaze components. -/
def batchOf (xs : List ℚ) : List RawSample :=
  List.replicate 20 (rawOf 0) ++ xs.map rawOf

theorem batchOf_length (xs : List ℚ) : (batchOf xs).length = 20 + xs.length := by
  simp [batchOf]
  omega

theorem batchOf_drop20 (xs : List ℚ) : (batchOf xs).drop 20 = xs.map rawOf := by
  rw [batchOf]
  exact List.drop_left' (by simp)

/-! ## Claim C2 -/

/-- C2 counterexample: with M = 21 samples per target (M > 20 as the claim
requires) the run does not return a `ValidationResult` at all — the single
post-discard sample makes `rmsi` divide by zero and the run aborts. -/
theorem C2_counterexample_M21 :
    validateEyeTracker host0 false [tar0] [batchOf [5]] = none := by
  apply validateEyeTracker_none host0 false [tar0] [batchOf [5]] 0 (by simp)
  simp [batchOf]

/-- C2 (amended: M > 21, i.e. at least two post-discard samples): a run
over N targets with M samples each returns a result with N parallel
target/sample lists, M − 20 retained samples per target, and every global
measure that is a key of every per-target record equal to the unweighted
mean of the per-target values. -/
theorem C2_run_shape (h : Host) (he : Bool) (ts : List ValTarget)
    (bs : List (List RawSample)) (N M : ℕ)
    (hN : ts.length = N) (hB : bs.length = N)
    (hM : ∀ b ∈ bs, b.length = M) (hM22 : 22 ≤ M) (hN0 : 0 < N) :
    ∃ r, validateEyeTracker h he ts bs = some r ∧
      r.targets.length = N ∧ r.samples.length = N ∧
      (∀ s ∈ r.samples, s.length = M - 20) ∧
      (∀ v ∈ RESULT_VARS, (∀ d ∈ r.targets, v ∈ keysOf d) →
        r.get v = mean (r.targets.map (fun d => (plook v d).getD 0))) := by
  have hzip : ∀ p ∈ ts.zip bs, p.2.length = M := by
    intro p hp
    obtain ⟨a, b⟩ := p
    exact hM b (List.of_mem_zip hp).2
  have hl : ∀ p ∈ ts.zip bs, 22 ≤ p.2.length := by
    intro p hp
    rw [hzip p hp]
    exact hM22
  have hziplen : (ts.zip bs).length = N := by
    rw [List.length_zip, hN, hB, min_self]
  refine ⟨_, validateEyeTracker_eq h he ts bs hl, ?_, ?_, ?_, ?_⟩
  · show (expTars h he 0 (ts.zip bs)).length = N
    rw [expTars_length, hziplen]
  · show (expSams h he (ts.zip bs)).length = N
    rw [expSams_length, hziplen]
  · intro s hs
    exact expSams_mem_length h he M (ts.zip bs) hzip s hs
  · intro v hv hall
    have hne : expTars h he 0 (ts.zip bs) ≠ [] := by
      intro hc
      have := expTars_length h he (ts.zip bs) 0
      rw [hc, hziplen] at this
      simp at this
      omega
    have hnd : ∀ d ∈ expTars h he 0 (ts.zip bs), (keysOf d).Nodup ∧ v ∈ keysOf d := by
      intro d hd
      refine ⟨?_, hall d hd⟩
      obtain ⟨c2, t2, b2, _, rfl⟩ := expTars_mem h he (ts.zip bs) 0 d hd
      exact keysOf_expTarget_nodup h he c2 t2 b2
    have hagg := plook_aggDict_of_all mean (expTars h he 0 (ts.zip bs)) v hne hnd
    have hget := get_setResults (aggDict mean (expTars h he 0 (ts.zip bs))) v hv
      { results := setResults (aggDict mean (expTars h he 0 (ts.zip bs)))
        targets := expTars h he 0 (ts.zip bs)
        samples := expSams h he (ts.zip bs) } rfl
    rw [hget, hagg]
    rfl

/-- Witness for the amended C2 at a concrete 1-target, 22-sample run. -/
theorem C2_run_shape_witness :
    ∃ r, validateEyeTracker host0 false [tar0] [batchOf [0, 3]] = some r ∧
      r.targets.length = 1 ∧ r.samples.length = 1 ∧
      (∀ s ∈ r.samples, s.length = 22 - 20) ∧
      (∀ v ∈ RESULT_VARS, (∀ d ∈ r.targets, v ∈ keysOf d) →
        r.get v = mean (r.targets.map (fun d => (plook v d).getD 0))) :=
  C2_run_shape host0 false [tar0] [batchOf [0, 3]] 1 22 (by simp) (by simp)
    (by
      intro b hb
      simp only [List.mem_singleton] at hb
      rw [hb, batchOf_length]
      rfl)
    (by norm_num) (by norm_num)

/-! ## Claim C3 -/

/-- C3: with monocular data available, the stored per-eye signed error
components are NOT computed from the vectors of each eye — they are copies
of the combined-gaze decomposition, for every host geometry and every
sample (`recorder.py` line 865 reads `angularDiff`, not `angularDiffM`). -/
theorem C3_monocular_err_copied (h : Host) (tgt : Vec3) (sam : RawSample) :
    (processSample h true tgt sam).mono.map
        (fun m => (m.targetErrL_X, m.targetErrL_Y, m.targetErrR_X, m.targetErrR_Y)) =
      some ((processSample h true tgt sam).targetErr_X,
            (processSample h true tgt sam).targetErr_Y,
            (processSample h true tgt sam).targetErr_X,
            (processSample h true tgt sam).targetErr_Y) := by
  simp [processSample]

/-! ## Claim C4 -/

/-- C4 counterexample: a target whose batch has zero samples left after the
settle-window discard (here: exactly 20 samples) makes the whole run raise
(`mean` of an empty list) — no `ValidationResult` with MISSING measures is
returned. -/
theorem C4_counterexample_zero_samples :
    validateEyeTracker host0 false [tar0] [batchOf []] = none := by
  apply validateEyeTracker_none host0 false [tar0] [batchOf []] 0 (by simp)
  simp [batchOf]

/-- C4 (amended): a target with zero valid samples after the settle
discard IS a hard failure — the statistics raise and the run aborts with
no result, for any such target anywhere in the run (consistent with the
propagation rule of §7, not with the data-quality bullet). -/
theorem C4_zero_sample_target_aborts (h : Host) (he : Bool)
    (ts : List ValTarget) (bs : List (List RawSample)) (i : ℕ)
    (hi : i < (ts.zip bs).length)
    (hb : ((ts.zip bs).get ⟨i, hi⟩).2.length ≤ 20) :
    validateEyeTracker h he ts bs = none :=
  validateEyeTracker_none h he ts bs i hi (by omega)

/-- Witness for the amended C4: a two-target run whose second target has
only 5 samples aborts. -/
theorem C4_zero_sample_target_aborts_witness :
    validateEyeTracker host0 false [tar0, tar0]
      [batchOf [0, 3], List.replicate 5 (rawOf 0)] = none :=
  C4_zero_sample_target_aborts host0 false [tar0, tar0]
    [batchOf [0, 3], List.replicate 5 (rawOf 0)] 1 (by simp) (by simp)

/-! ## Claim C8 -/

/-- The target/batch pairing of the concrete demo run. -/
def demoPairs : List (ValTarget × List RawSample) := [tar0].zip [batchOf [0, 3]]

/-- The result of the concrete binocular-only demo run. -/
def demoRun : ValidationResult :=
  { results := setResults (aggDict mean (expTars host0 false 0 demoPairs))
    targets := expTars host0 false 0 demoPairs
    samples := expSams host0 false demoPairs }

theorem demoRun_eq :
    validateEyeTracker host0 false [tar0] [batchOf [0, 3]] = some demoRun := by
  show validateEyeTracker host0 false [tar0] [batchOf [0, 3]] =
    some { results := setResults (aggDict mean (expTars host0 false 0 demoPairs))
           targets := expTars host0 false 0 demoPairs
           samples := expSams host0 false demoPairs }
  have hpair : demoPairs = [tar0].zip [batchOf [0, 3]] := rfl
  rw [hpair]
  exact validateEyeTracker_eq host0 false [tar0] [batchOf [0, 3]] (by
    intro p hp
    have hp2 : p = (tar0, batchOf [0, 3]) := by simpa using hp
    rw [hp2, batchOf_length]
    norm_num)

theorem demoRun_first_target :
    demoRun.targets.headD [] = expTarget host0 false 0 tar0 (batchOf [0, 3]) := rfl

/-- C8 counterexample: on a run without monocular data the per-target
record does NOT contain the monocular keys with a MISSING value — the keys
are absent altogether (only the aggregate-level attributes get the MISSING
sentinel). -/
theorem C8_counterexample_keys_omitted :
    validateEyeTracker host0 false [tar0] [batchOf [0, 3]] = some demoRun ∧
    demoRun.targets.length = 1 ∧
    plook "ipd" (demoRun.targets.headD []) = none ∧
    plook "acc_L" (demoRun.targets.headD []) = none := by
  have hkeys : keysOf (demoRun.targets.headD []) = KEYS_BASE := by
    rw [demoRun_first_target, expTarget, keysOf_targetDict]
    simp
  refine ⟨demoRun_eq, ?_, ?_, ?_⟩
  · show (expTars host0 false 0 demoPairs).length = 1
    rw [expTars_length]
    rfl
  · rw [plook_eq_none_iff, hkeys]
    decide
  · rw [plook_eq_none_iff, hkeys]
    decide

/-- C8 (amended): on a run without monocular data the per-target records
omit the monocular keys (`ipd` and the `_L`/`_R` variants) entirely, while
the aggregate `ValidationResult` attributes for those measures are all
present and hold the MISSING sentinel (set by `_setResults`). -/
theorem C8_monocular_missing_at_aggregate (h : Host) (ts : List ValTarget)
    (bs : List (List RawSample)) (r : ValidationResult)
    (hr : validateEyeTracker h false ts bs = some r) :
    (∀ d ∈ r.targets, ∀ v ∈ MONO_VARS, plook v d = none) ∧
    (∀ v ∈ MONO_VARS, r.get v = MISSING_VALUE) := by
  rw [validateEyeTracker] at hr
  cases hrt : runTargets h false 0 (ts.zip bs) with
  | none => rw [hrt] at hr; exact absurd hr (by simp)
  | some y =>
    obtain ⟨ds, pss⟩ := y
    rw [hrt] at hr
    injection hr with hr2
    have hds : ds = expTars h false 0 (ts.zip bs) :=
      runTargets_some_inv h false (ts.zip bs) 0 ds pss hrt
    have hkeys : ∀ d ∈ ds, keysOf d = KEYS_BASE := by
      intro d hd
      rw [hds] at hd
      obtain ⟨c2, t2, b2, _, rfl⟩ := expTars_mem h false (ts.zip bs) 0 d hd
      rw [expTarget, keysOf_targetDict]
      simp
    have hnotin : ∀ v ∈ MONO_VARS, v ∉ KEYS_BASE := by decide
    have hsub : ∀ v ∈ MONO_VARS, v ∈ RESULT_VARS := by decide
    subst hr2
    constructor
    · intro d hd v hv
      rw [plook_eq_none_iff, hkeys d hd]
      exact hnotin v hv
    · intro v hv
      have hnone : plook v (aggDict mean ds) = none := by
        apply plook_aggDict_none
        intro d hd
        rw [hkeys d hd]
        exact hnotin v hv
      rw [get_setResults (aggDict mean ds) v (hsub v hv)
        { results := setResults (aggDict mean ds), targets := ds, samples := pss } rfl,
        hnone]
      rfl

/-- Witness for the amended C8: at the demo run, the aggregate `ipd` and
`acc_L` attributes hold the MISSING sentinel. -/
theorem C8_monocular_missing_at_aggregate_witness :
    demoRun.get "ipd" = MISSING_VALUE ∧ demoRun.get "acc_L" = MISSING_VALUE :=
  ⟨(C8_monocular_missing_at_aggregate host0 [tar0] [batchOf [0, 3]] demoRun
      demoRun_eq).2 "ipd" (by decide),
   (C8_monocular_missing_at_aggregate host0 [tar0] [batchOf [0, 3]] demoRun
      demoRun_eq).2 "acc_L" (by decide)⟩

/-! ## Lookup lemmas for `dset` and the per-target dicts -/

theorem plook_dset_self (d : List (String × ℚ)) (k : String) (v : ℚ) :
    plook k (dset d k v) = some v := by
  induction d with
  | nil => simp [dset, plook]
  | cons p t ih =>
    obtain ⟨a, w⟩ := p
    rw [dset]
    by_cases h : a = k
    · rw [if_pos h, plook, if_pos h]
    · rw [if_neg h, plook, if_neg h, ih]

theorem plook_dset_ne (d : List (String × ℚ)) {k k2 : String} (h : k2 ≠ k)
    (v : ℚ) : plook k (dset d k2 v) = plook k d := by
  induction d with
  | nil => simp [dset, plook, h]
  | cons p t ih =>
    obtain ⟨a, w⟩ := p
    rw [dset]
    by_cases ha : a = k2
    · have hk : ¬(a = k) := by rw [ha]; exact h
      rw [if_pos ha, plook, plook, if_neg hk, if_neg hk]
    · rw [if_neg ha, plook, plook]
      by_cases hak : a = k
      · rw [if_pos hak, if_pos hak]
      · rw [if_neg hak, if_neg hak, ih]

theorem plook_targetDict_x (h : Host) (he : Bool) (c : ℕ) (t : ValTarget)
    (ps : List ProcSample) : plook "x" (targetDict h he c t ps) = some t.x := by
  cases he <;> simp [targetDict, plook, String.reduceEq]

theorem plook_targetDict_sdX (h : Host) (he : Bool) (c : ℕ) (t : ValTarget)
    (ps : List ProcSample) :
    plook "sdX" (targetDict h he c t ps) =
      some (h.sq (sdVar (ps.map (fun p => p.targetErr_X)))) := by
  cases he <;> simp [targetDict, plook, String.reduceEq]

theorem plook_recomputeTargetDict_sdX (h : Host) (start e : ℕ)
    (tar : List (String × ℚ)) (sam : List ProcSample)
    (hm : monoPresent (pySlice sam start e) = false) :
    plook "sdX" (recomputeTargetDict h start e tar sam) =
      some (h.sq (sdVar ((pySlice sam start e).map (fun p => |p.targetErr_X|)))) := by
  rw [recomputeTargetDict]
  simp only [hm, Bool.false_eq_true, if_false]
  rw [plook_dset_ne _ (by decide), plook_dset_ne _ (by decide),
    plook_dset_ne _ (by decide), plook_dset_ne _ (by decide), plook_dset_self]

/-! ## Characterisation of a successful recompute -/

theorem recomputeTarget_eq_some (h : Host) (start e : ℕ)
    (tar : List (String × ℚ)) (sam : List ProcSample)
    (hs : 2 ≤ (pySlice sam start e).length) :
    recomputeTarget h start e tar sam =
      some (recomputeTargetDict h start e tar sam) := by
  rw [recomputeTarget, if_neg]
  omega

theorem recomputeLoop_eq (h : Host) (start : ℕ) (xr yr dr : Option (ℚ × ℚ))
    (e : ℕ) :
    ∀ (l : List (List (String × ℚ) × List ProcSample)),
      (∀ p ∈ l, 2 ≤ (pySlice p.2 start e).length) →
      recomputeLoop h start xr yr dr (some e) l =
        some (l.map (fun p => recomputeTargetDict h start e p.1 p.2),
              (l.filter (fun p => tarInRange xr yr dr p.1)).map
                (fun p => recomputeTargetDict h start e p.1 p.2),
              some e) := by
  intro l
  induction l with
  | nil => intro _; rfl
  | cons p rest ih =>
    intro hl
    obtain ⟨tar, sam⟩ := p
    rw [recomputeLoop]
    have he1 : (some e).getD sam.length = e := rfl
    rw [he1, recomputeTarget_eq_some h start e tar sam
        (hl (tar, sam) (List.mem_cons_self _ _)),
      ih (fun q hq => hl q (List.mem_cons_of_mem _ hq))]
    dsimp only
    rw [List.filter_cons]
    by_cases hc : tarInRange xr yr dr tar = true
    · rw [if_pos hc, if_pos hc, List.map_cons]
      rfl
    · rw [if_neg hc, if_neg hc]
      rfl

theorem recomputeMetrics_eq (h : Host) (r : ValidationResult) (start e : ℕ)
    (xr yr dr : Option (ℚ × ℚ)) (aggF : Option (List ℚ → ℚ))
    (hs : ∀ p ∈ r.targets.zip r.samples, 2 ≤ (pySlice p.2 start e).length) :
    recomputeMetrics h r start (some e) xr yr dr aggF =
      some { results := setResults
               (dset (dset (aggDict (aggF.getD mean)
                   (((r.targets.zip r.samples).filter
                       (fun p => tarInRange xr yr dr p.1)).map
                     (fun p => recomputeTargetDict h start e p.1 p.2)))
                 "start_sample" (start : ℚ)) "end_sample" (e : ℚ))
             targets := (r.targets.zip r.samples).map
               (fun p => recomputeTargetDict h start e p.1 p.2)
             samples := r.samples } := by
  rw [recomputeMetrics, recomputeLoop_eq h start xr yr dr e _ hs]

/-! ## Claim C7 -/

/-- C7: on a recompute with spatial filters every target — in range or not
— has its per-target record recomputed and included in the returned
`targets` list; the global aggregate is computed from the in-range targets
only; and a filter excluding every target still returns a
`ValidationResult`, whose global measure fields hold the MISSING sentinel. -/
theorem C7_spatial_filter (h : Host) (r : ValidationResult) (start e : ℕ)
    (xr yr dr : Option (ℚ × ℚ)) (aggF : Option (List ℚ → ℚ))
    (hs : ∀ p ∈ r.targets.zip r.samples, 2 ≤ (pySlice p.2 start e).length)
    (hlen : r.samples.length = r.targets.length) :
    ∃ r2, recomputeMetrics h r start (some e) xr yr dr aggF = some r2 ∧
      r2.targets.length = r.targets.length ∧
      r2.targets = (r.targets.zip r.samples).map
        (fun p => recomputeTargetDict h start e p.1 p.2) ∧
      r2.results = setResults (dset (dset (aggDict (aggF.getD mean)
          (((r.targets.zip r.samples).filter (fun p => tarInRange xr yr dr p.1)).map
            (fun p => recomputeTargetDict h start e p.1 p.2)))
          "start_sample" (start : ℚ)) "end_sample" (e : ℚ)) ∧
      ((∀ p ∈ r.targets.zip r.samples, tarInRange xr yr dr p.1 = false) →
        ∀ v ∈ RESULT_VARS, v ≠ "start_sample" → v ≠ "end_sample" →
          r2.get v = MISSING_VALUE) := by
  refine ⟨_, recomputeMetrics_eq h r start e xr yr dr aggF hs, ?_, rfl, rfl, ?_⟩
  · show ((r.targets.zip r.samples).map _).length = _
    rw [List.length_map, List.length_zip, hlen, min_self]
  · intro hex v hv hv1 hv2
    have hfilter : (r.targets.zip r.samples).filter
        (fun p => tarInRange xr yr dr p.1) = [] := by
      rw [List.filter_eq_nil_iff]
      intro p hp
      rw [hex p hp]
      simp
    have hget := get_setResults
      (dset (dset (aggDict (aggF.getD mean)
          (((r.targets.zip r.samples).filter (fun p => tarInRange xr yr dr p.1)).map
            (fun p => recomputeTargetDict h start e p.1 p.2)))
        "start_sample" (start : ℚ)) "end_sample" (e : ℚ)) v hv
      { results := setResults (dset (dset (aggDict (aggF.getD mean)
            (((r.targets.zip r.samples).filter (fun p => tarInRange xr yr dr p.1)).map
              (fun p => recomputeTargetDict h start e p.1 p.2)))
          "start_sample" (start : ℚ)) "end_sample" (e : ℚ))
        targets := (r.targets.zip r.samples).map
          (fun p => recomputeTargetDict h start e p.1 p.2)
        samples := r.samples } rfl
    rw [hget, plook_dset_ne _ (Ne.symm hv2), plook_dset_ne _ (Ne.symm hv1), hfilter]
    rfl

/-- Witness for C7: recomputing the demo run with a horizontal filter that
excludes its only target succeeds and yields MISSING global accuracy. -/
theorem C7_spatial_filter_witness :
    ∃ r2, recomputeMetrics host0 demoRun 0 (some 2) (some (10, 20)) none none none
        = some r2 ∧
      r2.targets.length = 1 ∧ r2.get "acc" = MISSING_VALUE := by
  have hzip : demoRun.targets.zip demoRun.samples =
      [(expTarget host0 false 0 tar0 (batchOf [0, 3]),
        List.map (processSample host0 false tar0.hmd) ((batchOf [0, 3]).drop 20))] := rfl
  have hs : ∀ p ∈ demoRun.targets.zip demoRun.samples,
      2 ≤ (pySlice p.2 0 2).length := by
    intro p hp
    rw [hzip] at hp
    have hp2 := List.mem_singleton.mp hp
    rw [hp2]
    rw [batchOf_drop20]
    rfl
  have hex : ∀ p ∈ demoRun.targets.zip demoRun.samples,
      tarInRange (some (10, 20)) none none p.1 = false := by
    intro p hp
    rw [hzip] at hp
    have hp2 := List.mem_singleton.mp hp
    rw [hp2]
    show tarInRange (some (10, 20)) none none
      (targetDict host0 false 0 tar0 ((batchOf [0, 3]).drop 20 |>.map
        (processSample host0 false tar0.hmd))) = false
    rw [tarInRange]
    rw [plook_targetDict_x]
    norm_num [tar0]
  obtain ⟨r2, heq, hlen2, _, _, hmiss⟩ :=
    C7_spatial_filter host0 demoRun 0 2 (some (10, 20)) none none none hs rfl
  exact ⟨r2, heq, by rw [hlen2]; rfl,
    hmiss hex "acc" (by decide) (by decide) (by decide)⟩

/-! ## Claim C1 -/

/-- The target/batch pairing of the mixed-sign demo run: post-discard
signed horizontal errors −3, 0, 3. -/
def pairs1 : List (ValTarget × List RawSample) := [tar0].zip [batchOf [-3, 0, 3]]

/-- The result of the mixed-sign demo run. -/
def run1 : ValidationResult :=
  { results := setResults (aggDict mean (expTars host0 false 0 pairs1))
    targets := expTars host0 false 0 pairs1
    samples := expSams host0 false pairs1 }

theorem run1_eq :
    validateEyeTracker host0 false [tar0] [batchOf [-3, 0, 3]] = some run1 := by
  show validateEyeTracker host0 false [tar0] [batchOf [-3, 0, 3]] =
    some { results := setResults (aggDict mean (expTars host0 false 0 pairs1))
           targets := expTars host0 false 0 pairs1
           samples := expSams host0 false pairs1 }
  have hpair : pairs1 = [tar0].zip [batchOf [-3, 0, 3]] := rfl
  rw [hpair]
  exact validateEyeTracker_eq host0 false [tar0] [batchOf [-3, 0, 3]] (by
    intro p hp
    have hp2 : p = (tar0, batchOf [-3, 0, 3]) := by simpa using hp
    rw [hp2, batchOf_length]
    norm_num)

/-- The global `sdX` of the original run: standard deviation of the *signed*
per-sample horizontal errors −3, 0, 3, whose variance is 6. -/
theorem run1_sdX : run1.get "sdX" = 6 := by
  have hget := get_setResults (aggDict mean (expTars host0 false 0 pairs1)) "sdX"
    (by decide) run1 rfl
  have hval : expTars host0 false 0 pairs1 =
      [expTarget host0 false 0 tar0 (batchOf [-3, 0, 3])] := rfl
  rw [hget, hval]
  rw [plook_aggDict_of_all mean _ "sdX" (by simp) (by
    intro d hd
    rw [List.mem_singleton] at hd
    subst hd
    refine ⟨keysOf_expTarget_nodup host0 false 0 tar0 (batchOf [-3, 0, 3]), ?_⟩
    rw [expTarget, keysOf_targetDict]
    simp only [Bool.false_eq_true, if_false]
    decide)]
  rw [Option.getD_some, List.map_singleton]
  simp only [expTarget]
  rw [plook_targetDict_sdX, Option.getD_some]
  have hps : (((batchOf [-3, 0, 3]).drop 20).map
      (processSample host0 false tar0.hmd)).map (fun p => p.targetErr_X) =
      [-3, 0, 3] := by
    rw [batchOf_drop20]
    rfl
  rw [hps]
  norm_num [mean, sdVar, host0]

/-- `recomputeMetrics` on a one-target result with `end_sample = None`:
the in-loop `end_sample = len(sam)` resolution. -/
theorem recomputeMetrics_single_noend (h : Host) (r : ValidationResult)
    (start : ℕ) (xr yr dr : Option (ℚ × ℚ)) (aggF : Option (List ℚ → ℚ))
    (tar : List (String × ℚ)) (sam : List ProcSample)
    (htar : r.targets = [tar]) (hsam : r.samples = [sam])
    (hs : 2 ≤ (pySlice sam start sam.length).length) :
    recomputeMetrics h r start none xr yr dr aggF =
      some { results := setResults (dset (dset (aggDict (aggF.getD mean)
                (if tarInRange xr yr dr tar then
                  [recomputeTargetDict h start sam.length tar sam] else []))
              "start_sample" (start : ℚ)) "end_sample" ((sam.length : ℚ)))
             targets := [recomputeTargetDict h start sam.length tar sam]
             samples := r.samples } := by
  have hloop : recomputeLoop h start xr yr dr none ([tar].zip [sam]) =
      some ([recomputeTargetDict h start sam.length tar sam],
            if tarInRange xr yr dr tar then
              [recomputeTargetDict h start sam.length tar sam] else [],
            some sam.length) := by
    show recomputeLoop h start xr yr dr none [(tar, sam)] = _
    rw [recomputeLoop]
    dsimp only [Option.getD]
    rw [recomputeTarget_eq_some h start sam.length tar sam hs, recomputeLoop]
  rw [recomputeMetrics, htar, hsam, hloop]

/-- C1: recomputing the mixed-sign run with `start_sample = 0`,
`end_sample = None`, no spatial filters and the default aggregation does
NOT reproduce the original global measures: the original `sdX` is the SD
of the signed horizontal errors (variance 6 here), while the recompute
takes the SD of their absolute values (variance 2 here).  (`medaccX`,
`medaccY`, `sdY`, `rmsiX`, `rmsiY` diverge for the same reasons.) -/
theorem C1_recompute_changes_sdX :
    ∃ r r2,
      validateEyeTracker host0 false [tar0] [batchOf [-3, 0, 3]] = some r ∧
      recomputeMetrics host0 r 0 none none none none none = some r2 ∧
      r.get "sdX" = 6 ∧ r2.get "sdX" = 2 := by
  have hsam : run1.samples =
      [List.map (processSample host0 false tar0.hmd) ((batchOf [-3, 0, 3]).drop 20)] := rfl
  have htar : run1.targets = [expTarget host0 false 0 tar0 (batchOf [-3, 0, 3])] := rfl
  have hslen : (List.map (processSample host0 false tar0.hmd)
      ((batchOf [-3, 0, 3]).drop 20)).length = 3 := by
    rw [batchOf_drop20]
    rfl
  have hs2 : 2 ≤ (pySlice (List.map (processSample host0 false tar0.hmd)
      ((batchOf [-3, 0, 3]).drop 20)) 0
      (List.map (processSample host0 false tar0.hmd)
        ((batchOf [-3, 0, 3]).drop 20)).length).length := by
    rw [pySlice, List.drop_zero, List.length_take, hslen]
    norm_num
  have hrec := recomputeMetrics_single_noend host0 run1 0 none none none none
    (expTarget host0 false 0 tar0 (batchOf [-3, 0, 3]))
    (List.map (processSample host0 false tar0.hmd) ((batchOf [-3, 0, 3]).drop 20))
    htar hsam hs2
  refine ⟨run1, _, run1_eq, hrec, run1_sdX, ?_⟩
  have htr : tarInRange none none none
      (expTarget host0 false 0 tar0 (batchOf [-3, 0, 3])) = true := rfl
  dsimp only [ValidationResult.get]
  rw [plook_setResults _ _ (by decide), htr]
  rw [plook_dset_ne _ (by decide), plook_dset_ne _ (by decide)]
  rw [batchOf_drop20]
  set_option maxHeartbeats 1000000 in
  norm_num [aggDict, collectAvg, collectTar, addKV, recomputeTargetDict, dset,
    plook, plookL, pySlice, monoPresent, mean, sdVar, median, rmsiVar, succDiffSq,
    expTarget, targetDict, processSample, rawOf, host0, tar0, vFwd, vZero,
    MISSING_VALUE, String.reduceEq]
  simp +decide

/-! ## Claim C9 — JSON export (`ValidationResult.toJSON`)

`toJSON` is `json.dumps(self.__dict__)`.  The instance dict holds
`metadata`, `targets`, `samples`, `_results` (set in `__init__`) followed
by one attribute per `RESULT_VARS` entry (set by `_setResults`, in
order).  Numbers are modelled as exact rationals: `json.dumps` of a
Python 3 float uses `repr`, which round-trips the value exactly, so the
numeric content of the document is the value itself. -/

/-- A JSON value tree. -/
inductive Json where
  | num : ℚ → Json
  | str : String → Json
  | arr : List Json → Json
  | obj : List (String × Json) → Json

/-- Encode a numeric dict (a per-target record or `_results`). -/
def encodeDict (d : List (String × ℚ)) : Json :=
  Json.obj (d.map (fun kv => (kv.1, Json.num kv.2)))

/-- Encode the stored monocular fields of a sample record. -/
def encodeMono (m : MonoFields) : List (String × Json) :=
  [("targetErrL", Json.num m.targetErrL),
   ("targetErrL_X", Json.num m.targetErrL_X),
   ("targetErrL_Y", Json.num m.targetErrL_Y),
   ("targetGazeL_X", Json.num m.targetGazeL_X),
   ("targetGazeL_Y", Json.num m.targetGazeL_Y),
   ("targetErrR", Json.num m.targetErrR),
   ("targetErrR_X", Json.num m.targetErrR_X),
   ("targetErrR_Y", Json.num m.targetErrR_Y),
   ("targetGazeR_X", Json.num m.targetGazeR_X),
   ("targetGazeR_Y", Json.num m.targetGazeR_Y)]

/-- Encode one stored sample record (the fields modelled here). -/
def encodeSample (p : ProcSample) : Json :=
  Json.obj
    ([("tracker_posX", Json.num p.raw.tracker_pos.x),
      ("tracker_posY", Json.num p.raw.tracker_pos.y),
      ("tracker_posZ", Json.num p.raw.tracker_pos.z),
      ("trackVec_X", Json.num p.raw.trackVec.x),
      ("trackVec_Y", Json.num p.raw.trackVec.y),
      ("trackVec_Z", Json.num p.raw.trackVec.z),
      ("targetErr", Json.num p.targetErr),
      ("targetErr_X", Json.num p.targetErr_X),
      ("targetErr_Y", Json.num p.targetErr_Y),
      ("targetGaze_X", Json.num p.targetGaze_X),
      ("targetGaze_Y", Json.num p.targetGaze_Y)]
     ++ (match p.mono with | some m => encodeMono m | none => []))

/-- `ValidationResult.toJSON` (`data.py` lines 317-319), as a JSON tree:
`json.dumps(self.__dict__)` with the opaque metadata dict encoded as an
empty object. -/
def toJSON (r : ValidationResult) : Json :=
  Json.obj
    ([("metadata", Json.obj []),
      ("targets", Json.arr (r.targets.map encodeDict)),
      ("samples", Json.arr (r.samples.map (fun s => Json.arr (s.map encodeSample)))),
      ("_results", encodeDict r.results)]
     ++ r.results.map (fun kv => (kv.1, Json.num kv.2)))

/-- Lookup in a JSON object member list. -/
def jlook (k : String) : List (String × Json) → Option Json
  | [] => none
  | (a, v) :: t => if a = k then some v else jlook k t

/-- Parse a JSON number. -/
def decodeNum : Json → Option ℚ
  | Json.num q => some q
  | _ => none

/-- Parse a JSON object of numbers back into a dict. -/
def decodeDict : Json → Option (List (String × ℚ))
  | Json.obj l => l.mapM (fun kv => (decodeNum kv.2).map (fun q => (kv.1, q)))
  | _ => none

/-- Parse the `targets` member of a serialized result. -/
def decodeTargets (j : Json) : Option (List (List (String × ℚ))) :=
  match j with
  | Json.obj l =>
    match jlook "targets" l with
    | some (Json.arr ts) => ts.mapM decodeDict
    | _ => none
  | _ => none

/-- Parse a top-level numeric field of a serialized result. -/
def decodeField (j : Json) (k : String) : Option ℚ :=
  match j with
  | Json.obj l => (jlook k l).bind decodeNum
  | _ => none

theorem decodeDict_encodeDict (d : List (String × ℚ)) :
    decodeDict (encodeDict d) = some d := by
  rw [encodeDict, decodeDict]
  induction d with
  | nil => rfl
  | cons kv t ih =>
    rw [List.map_cons, List.mapM_cons, ih]
    rfl

theorem mapM_decodeDict (ts : List (List (String × ℚ))) :
    (ts.map encodeDict).mapM decodeDict = some ts := by
  induction ts with
  | nil => rfl
  | cons d t ih =>
    rw [List.map_cons, List.mapM_cons, decodeDict_encodeDict d, ih]
    rfl

theorem jlook_map_num (k : String) (l : List (String × ℚ)) :
    jlook k (l.map (fun kv => (kv.1, Json.num kv.2))) =
      (plook k l).map Json.num := by
  induction l with
  | nil => rfl
  | cons kv t ih =>
    obtain ⟨a, v⟩ := kv
    rw [List.map_cons, jlook, plook]
    by_cases h : a = k
    · rw [if_pos h, if_pos h]
      rfl
    · rw [if_neg h, if_neg h, ih]

/-- C9: serializing a `ValidationResult` to JSON and parsing the document
back yields the identical per-target numeric records and the identical
global numeric measure fields. -/
theorem C9_json_roundtrip (r : ValidationResult) (res : List (String × ℚ))
    (hres : r.results = setResults res) :
    decodeTargets (toJSON r) = some r.targets ∧
    (∀ v ∈ RESULT_VARS, decodeField (toJSON r) v = some (r.get v)) := by
  constructor
  · rw [toJSON, decodeTargets]
    simp only [List.cons_append]
    rw [jlook, if_neg (by decide), jlook, if_pos rfl]
    exact mapM_decodeDict r.targets
  · intro v hv
    have hv4 : ¬("metadata" = v) ∧ ¬("targets" = v) ∧ ¬("samples" = v) ∧
        ¬("_results" = v) := by
      have hd : ∀ w ∈ RESULT_VARS, ¬("metadata" = w) ∧ ¬("targets" = w) ∧
          ¬("samples" = w) ∧ ¬("_results" = w) := by decide
      exact hd v hv
    rw [toJSON, decodeField]
    simp only [List.cons_append]
    rw [jlook, if_neg hv4.1, jlook, if_neg hv4.2.1, jlook, if_neg hv4.2.2.1,
      jlook, if_neg hv4.2.2.2, List.nil_append, jlook_map_num, hres,
      plook_setResults res v hv]
    rw [ValidationResult.get, hres, plook_setResults res v hv]
    rfl

/-- A small concrete result for the C9 witness. -/
def jsonDemo : ValidationResult :=
  { results := setResults [("acc", 1)]
    targets := [[("x", 1)]]
    samples := [] }

/-- Witness for C9 at a concrete result object. -/
theorem C9_json_roundtrip_witness :
    decodeTargets (toJSON jsonDemo) = some jsonDemo.targets ∧
    decodeField (toJSON jsonDemo) "acc" = some (jsonDemo.get "acc") :=
  ⟨(C9_json_roundtrip jsonDemo [("acc", 1)] rfl).1,
   (C9_json_roundtrip jsonDemo [("acc", 1)] rfl).2 "acc" (by decide)⟩

end VExp
